import Mathlib

/-!
Verification development for the Lens-Call relay server.

The repository contains two server variants:
* `src/server.js` — a plain `ws` WebSocket server with global state
  (`sessions`, `webClients`, `activeBaseCodes`);
* `src/server/server.js` — a Socket.IO + `ws` hybrid whose state lives in a
  `MultiUserSessionManager` class.

Both are embedded below.  JavaScript `Map`s are modelled as association
lists with JS `Map` semantics (`set` updates in place or appends, `get`
returns the first binding, `delete` removes the binding); `Set`s are plain
lists.  Message sends are recorded in an append-only log, connection closes
as a flag on the connection record, so a handler is a pure state
transformer.  JS numbers carried by telemetry are modelled as `ℚ`
(the comparisons the code performs are exact on the values of interest).
-/

set_option autoImplicit false

/-- JS `Map.get`: first binding of the key, if any. -/
def mapGet {α β : Type} [DecidableEq α] : List (α × β) → α → Option β
  | [], _ => none
  | (k, v) :: t, key => if k = key then some v else mapGet t key

/-- JS `Map.set`: update the existing binding in place, else append. -/
def mapSet {α β : Type} [DecidableEq α] : List (α × β) → α → β → List (α × β)
  | [], key, val => [(key, val)]
  | (k, v) :: t, key, val =>
      if k = key then (key, val) :: t else (k, v) :: mapSet t key val

/-- JS `Map.delete`: remove the binding of the key (keys are unique in a `Map`). -/
def mapDelete {α β : Type} [DecidableEq α] : List (α × β) → α → List (α × β)
  | [], _ => []
  | (k, v) :: t, key => if k = key then t else (k, v) :: mapDelete t key

/-- JS `Map.has`. -/
def mapHas {α β : Type} [DecidableEq α] (m : List (α × β)) (key : α) : Bool :=
  (mapGet m key).isSome

/-- Update the value stored at a key, when present (models mutating a field of
the object held in the map). -/
def mapModify {α β : Type} [DecidableEq α] (m : List (α × β)) (key : α) (f : β → β) :
    List (α × β) :=
  m.map (fun p => if p.1 = key then (p.1, f p.2) else p)

/-- A JS value as carried by a parsed message field (`number`, `string`, …).
`undef` stands for a missing field. -/
inductive JsVal where
  | num (q : ℚ)
  | str (s : String)
  | bool (b : Bool)
  | null
  | undef
  deriving DecidableEq

/- ### Embedding of `src/server.js` -/

/-- `WebSocket.OPEN` readyState constant. -/
def wsOPEN : Nat := 1

/-- Connection role recorded in `ws.clientInfo.type` (`src/server.js` line 34). -/
inductive CType where
  | lensHost
  | lensClient
  | webApp
  deriving DecidableEq

/-- `ws.clientInfo` (`src/server.js` line 34): all fields start out `null`. -/
structure ClientInfo where
  ctype : Option CType
  sessionHash : Option String
  connectionId : Option String
  fullKeycode : Option String
  deriving DecidableEq

/-- One tracked WebSocket connection: its `clientInfo`, its `readyState`, and
whether the server has called `close()` on it. -/
structure Conn where
  info : ClientInfo
  readyState : Nat
  closed : Bool
  deriving DecidableEq

/-- A message the server sends to one connection (`src/server.js`); fields that
the source can leave `undefined` are `Option`s. -/
inductive OutMsg where
  | errorMsg (message : String)
  | connectionSuccessful
  | webAppConnected (sevenCharCode : String)
  | webAppDisconnected (sevenCharCode : Option String)
  | mouthData (sevenCharCode : String) (mouthOpenness : JsVal) (timestamp : Nat)
  | sessionEnded (reason : String)
  | sessionResponse (success : Bool) (baseSessionCode : String) (sessionHash : String)
  | joinResponse (success : Bool) (baseSessionCode : String) (sessionHash : String)
  deriving DecidableEq

/-- A session of `src/server.js` (line 70): display code, lens connections
(`connectionId -> ws`), and `userCodeMap` (`fullKeycode -> connectionId`). -/
structure Session where
  baseSessionCode : String
  lensClients : List (String × Nat)
  userCodeMap : List (String × String)
  deriving DecidableEq

/-- The global mutable state of `src/server.js` (lines 26-28) together with the
tracked connections and the log of `ws.send` calls. -/
structure SState where
  conns : List (Nat × Conn)
  sessions : List (String × Session)
  webClients : List (String × Nat)
  activeBaseCodes : List String
  sent : List (Nat × OutMsg)
  deriving DecidableEq

/-- `ws.send(JSON.stringify(m))`: append to the send log. -/
def sendMsg (st : SState) (w : Nat) (m : OutMsg) : SState :=
  { st with sent := st.sent ++ [(w, m)] }

/-- `ws.close()`: mark the connection closed. -/
def closeConn (st : SState) (w : Nat) : SState :=
  { st with conns := mapModify st.conns w (fun c => { c with closed := true }) }

/-- Overwrite `ws.clientInfo`. -/
def setConnInfo (st : SState) (w : Nat) (i : ClientInfo) : SState :=
  { st with conns := mapModify st.conns w (fun c => { c with info := i }) }

/-- Send an error message, then close the connection (the failure pattern of
`handleWebAppConnection`, `src/server.js` lines 106-108 and 113-115). -/
def closeAfterError (st : SState) (w : Nat) (message : String) : SState :=
  closeConn (sendMsg st w (OutMsg.errorMsg message)) w

/-- The `CHARS` alphabet of `generateUniqueBaseCode` (`src/server.js` line 186). -/
def CHARS : List Char := "ABCDEFGHIJKLMNOPQRSTUVWXYZ0123456789".toList

/-- One random draw of 6 alphabet indices
(`Math.floor(Math.random() * CHARS.length)` is always in range). -/
def codeOfDraw (d : Fin 6 → Fin CHARS.length) : String :=
  String.mk ((List.finRange 6).map (fun i => CHARS.get (d i)))

/-- `generateUniqueBaseCode` (`src/server.js` lines 185-193): redraw while the
code is in `activeBaseCodes`, then reserve it.  The stream of random draws is
an explicit argument; `none` means the stream ran out (the source would keep
calling `Math.random()`). -/
def generateUniqueBaseCode :
    List (Fin 6 → Fin CHARS.length) → List String → Option (String × List String)
  | [], _ => none
  | d :: rest, active =>
      let code := codeOfDraw d
      if code ∈ active then generateUniqueBaseCode rest active
      else some (code, active ++ [code])

/-- `findSessionByBaseCode` (`src/server.js` lines 194-201), fused with the
hash lookup of line 117: both scan `sessions` in insertion order and stop at
the first session whose `baseSessionCode` matches, so they agree on the entry. -/
def findSessionByBaseCode (sessions : List (String × Session)) (baseCode : String) :
    Option (String × Session) :=
  sessions.find? (fun p => p.2.baseSessionCode = baseCode)

/-- `handleHostSessionRequest` (`src/server.js` lines 65-76).  `data.sessionHash`
and `data.connectionId` are `Option`s (`none` = missing); the source's falsy
check also rejects the empty string. -/
def handleHostSessionRequest (st : SState) (w : Nat)
    (sessionHash connectionId : Option String)
    (draws : List (Fin 6 → Fin CHARS.length)) : SState :=
  match sessionHash, connectionId with
  | some hash, some connId =>
    if hash = "" ∨ connId = "" then st
    else
      match generateUniqueBaseCode draws st.activeBaseCodes with
      | none => st
      | some (code, active1) =>
        let newSession : Session :=
          { baseSessionCode := code, lensClients := [(connId, w)], userCodeMap := [] }
        let st1 := { st with activeBaseCodes := active1,
                             sessions := mapSet st.sessions hash newSession }
        let st2 := setConnInfo st1 w
          { ctype := some CType.lensHost, sessionHash := some hash,
            connectionId := some connId, fullKeycode := none }
        sendMsg st2 w (OutMsg.sessionResponse true code hash)
  | _, _ => st

/-- The `userMapping` payload of a `user_keycode_assigned` message
(`src/server.js` lines 91-101). -/
structure UserMapping where
  connectionId : Option String
  fullKeycode : String
  displayName : String
  deriving DecidableEq

/-- `handleUserKeycodeAssignment` (`src/server.js` lines 91-101): register the
full keycode in `userCodeMap` and stamp it on the owning lens connection. -/
def handleUserKeycodeAssignment (st : SState) (sessionHash : Option String)
    (userMapping : Option UserMapping) : SState :=
  match sessionHash, userMapping with
  | some hash, some um =>
    match mapGet st.sessions hash, um.connectionId with
    | some session, some connId =>
      if connId = "" then st
      else
        let session1 :=
          { session with userCodeMap := mapSet session.userCodeMap um.fullKeycode connId }
        let st1 := { st with sessions := mapSet st.sessions hash session1 }
        match mapGet session.lensClients connId with
        | some wid =>
            let stamp := fun (c : Conn) =>
              { c with info := { c.info with fullKeycode := some um.fullKeycode } }
            { st1 with conns := mapModify st1.conns wid stamp }
        | none => st1
    | _, _ => st
  | _, _ => st

/-- `handleWebAppConnection` (`src/server.js` lines 103-125): validate the
7-character code, locate the session by its 6-character prefix, require the
code to be registered, then attach — `webClients.set` overwrites any existing
attachment without checking for one. -/
def handleWebAppConnection (st : SState) (w : Nat) (sevenCharCode : Option String) :
    SState :=
  match sevenCharCode with
  | none => closeAfterError st w "Invalid code format."
  | some code =>
    if code.length ≠ 7 then closeAfterError st w "Invalid code format."
    else
      let baseCode := code.take 6
      match findSessionByBaseCode st.sessions baseCode with
      | none => closeAfterError st w "Invalid or inactive session code."
      | some (sessionHash, session) =>
        if mapHas session.userCodeMap code = false then
          closeAfterError st w "Invalid or inactive session code."
        else
          let st1 := setConnInfo st w
            { ctype := some CType.webApp, fullKeycode := some code,
              sessionHash := some sessionHash, connectionId := none }
          let st2 := { st1 with webClients := mapSet st1.webClients code w }
          let st3 := sendMsg st2 w OutMsg.connectionSuccessful
          { st3 with sent := st3.sent ++
              session.lensClients.map (fun p => (p.2, OutMsg.webAppConnected code)) }

/-- Is the connection's `readyState` `WebSocket.OPEN`
(`src/server.js` line 141)? -/
def connOpen (st : SState) (t : Nat) : Bool :=
  match mapGet st.conns t with
  | some c => c.readyState = wsOPEN
  | none => false

/-- The fan-out of `handleMouthData` (`src/server.js` lines 139-145): every lens
client except the owner of the sender's code, skipping connections that are not
`OPEN`. -/
def mouthBatch (st : SState) (session : Session) (senderId code : String)
    (mouthOpenness : JsVal) (now : Nat) : List (Nat × OutMsg) :=
  session.lensClients.filterMap (fun p =>
    if p.1 = senderId then none
    else if connOpen st p.2 then some (p.2, OutMsg.mouthData code mouthOpenness now)
    else none)

/-- `handleMouthData` (`src/server.js` lines 127-146).  Note: the openness value
is forwarded as-is — the handler never validates it. -/
def handleMouthData (st : SState) (sevenCharCode : Option String)
    (mouthOpenness : JsVal) (now : Nat) : SState :=
  match sevenCharCode with
  | none => st
  | some code =>
    match mapGet st.webClients code with
    | none => st
    | some wid =>
      match mapGet st.conns wid with
      | none => st
      | some wc =>
        match wc.info.sessionHash with
        | none => st
        | some hash =>
          if hash = "" then st
          else
            match mapGet st.sessions hash with
            | none => st
            | some session =>
              match mapGet session.userCodeMap code with
              | none => st
              | some senderId =>
                if senderId = "" then st
                else
                  { st with sent := st.sent ++ mouthBatch st session senderId code mouthOpenness now }

/-- The `lens_host` / `lens_client` branch of `handleDisconnection`
(`src/server.js` lines 160-183).  For a host: the host's own `fullKeycode` is
deleted from `userCodeMap` (line 165) before the teardown sweep of lines
169-175, then remaining web claimants are closed and evicted, remaining lens
clients are notified and closed, the base code is released and the session
deleted. -/
def lensDisconnect (st : SState) (c : Conn) (isHost : Bool) : SState :=
  match c.info.sessionHash with
  | none => st
  | some hash =>
    match mapGet st.sessions hash with
    | none => st
    | some session =>
      let session1 :=
        { session with lensClients :=
            match c.info.connectionId with
            | some cid => mapDelete session.lensClients cid
            | none => session.lensClients }
      let session2 :=
        { session1 with userCodeMap :=
            match c.info.fullKeycode with
            | some k => mapDelete session1.userCodeMap k
            | none => session1.userCodeMap }
      if isHost then
        let stA := session2.userCodeMap.foldl (fun acc p =>
          match mapGet acc.webClients p.1 with
          | some wid =>
              let acc1 := closeConn acc wid
              { acc1 with webClients := mapDelete acc1.webClients p.1 }
          | none => acc) st
        let stB := session2.lensClients.foldl (fun acc p =>
          closeConn (sendMsg acc p.2 (OutMsg.sessionEnded "Host disconnected.")) p.2) stA
        { stB with activeBaseCodes := stB.activeBaseCodes.erase session2.baseSessionCode,
                   sessions := mapDelete stB.sessions hash }
      else
        { st with sessions := mapSet st.sessions hash session2 }

/-- `handleDisconnection` (`src/server.js` lines 148-184). -/
def handleDisconnection (st : SState) (w : Nat) : SState :=
  match mapGet st.conns w with
  | none => st
  | some c =>
    match c.info.ctype with
    | some CType.webApp =>
      let st1 :=
        match c.info.fullKeycode with
        | some k => { st with webClients := mapDelete st.webClients k }
        | none => st
      match c.info.sessionHash with
      | none => st1
      | some hash =>
        match mapGet st1.sessions hash with
        | none => st1
        | some session =>
          { st1 with sent := st1.sent ++
              session.lensClients.map (fun p => (p.2, OutMsg.webAppDisconnected c.info.fullKeycode)) }
    | some CType.lensHost => lensDisconnect st c true
    | some CType.lensClient => lensDisconnect st c false
    | none => st

/- ### Embedding of `src/server/server.js` (`MultiUserSessionManager`) -/

/-- One user keycode record (`src/server/server.js` lines 104-111). -/
structure MUUser where
  connectionId : String
  userId : String
  displayName : String
  keycodeChar : String
  fullKeycode : String
  webAppSocketId : Option String
  deriving DecidableEq

/-- `SessionData` (`src/server/server.js` lines 113-122).  Note the object has
no `code` field — `session.code` reads `undefined` in the source. -/
structure MUSession where
  sessionHash : String
  baseCode : String
  lensStudioSocket : Option String
  users : List MUUser
  webAppConnections : List (String × String)
  createdAt : Nat
  lastActivity : Nat
  isActive : Bool
  deriving DecidableEq

/-- The three maps of `MultiUserSessionManager` (`src/server/server.js`
lines 79-81). -/
structure MUState where
  sessions : List (String × MUSession)
  userSessions : List (String × String)
  webAppSessions : List (String × String)
  deriving DecidableEq

/-- The alphabet of `generateBaseSessionCode` (`src/server/server.js` line 87):
A-Z and 2-9 minus I, O (32 symbols). -/
def muChars : List Char := "ABCDEFGHJKLMNPQRSTUVWXYZ23456789".toList

/-- One random draw of 6 indices into `muChars`. -/
def muCodeOfDraw (d : Fin 6 → Fin muChars.length) : String :=
  String.mk ((List.finRange 6).map (fun i => muChars.get (d i)))

/-- `generateBaseSessionCode` (`src/server/server.js` lines 86-96): redraw
while `this.sessions.has(code)` — the check is against the session-hash keys
of `sessions`, not against the base codes in use. -/
def generateBaseSessionCode :
    List (Fin 6 → Fin muChars.length) → List (String × MUSession) → Option String
  | [], _ => none
  | d :: rest, sessions =>
      let code := muCodeOfDraw d
      if mapHas sessions code then generateBaseSessionCode rest sessions
      else some code

/-- JS truthiness test for an optional string (`undefined`, `null` and `""`
are falsy). -/
def jsFalsy : Option String → Bool
  | none => true
  | some s => s = ""

/-- `getSessionBySocket` (`src/server/server.js` lines 165-168):
`userSessions.get(id) || webAppSessions.get(id)`, then the session. -/
def getSessionBySocket (st : MUState) (socketId : String) : Option MUSession :=
  let hash? :=
    match mapGet st.userSessions socketId with
    | some h => if h = "" then mapGet st.webAppSessions socketId else some h
    | none => mapGet st.webAppSessions socketId
  if jsFalsy hash? then none
  else hash?.bind (mapGet st.sessions)

/-- `updateActivity` (`src/server/server.js` lines 171-176); the key is an
`Option` because the caller at line 694 passes `session.code`, which is
`undefined`. -/
def updateActivity (st : MUState) (sessionHash : Option String) (now : Nat) : MUState :=
  match sessionHash with
  | none => st
  | some hash =>
    match mapGet st.sessions hash with
    | none => st
    | some s =>
        { st with sessions := mapSet st.sessions hash { s with lastActivity := now } }

/-- Result of `joinSessionWithKeycode` (`src/server/server.js` lines 285-347;
this second definition of the method shadows the first one at lines 139-162).
`ok` carries the fields of the success object, including the (updated)
session. -/
inductive MUJoinResult where
  | err (error : String)
  | ok (sessionId sessionCode userKeycode : String) (connectedUsers : Nat)
       (session : MUSession)
  deriving DecidableEq

/-- `joinSessionWithKeycode` (`src/server/server.js` lines 285-347): split the
7-character keycode, find the first session with the matching base code, find
the user slot by suffix character, reject when the keycode is already in
`webAppConnections`, else attach. -/
def joinSessionWithKeycode (st : MUState) (keycode socketId : String) (now : Nat) :
    MUJoinResult × MUState :=
  if keycode.length ≠ 7 then (MUJoinResult.err "Invalid keycode format", st)
  else
    let baseCode := keycode.take 6
    let userChar := keycode.drop 6
    match st.sessions.find? (fun p => p.2.baseCode = baseCode) with
    | none => (MUJoinResult.err "Session not found", st)
    | some (sessionHash, targetSession) =>
      match targetSession.users.find? (fun u => u.keycodeChar = userChar) with
      | none => (MUJoinResult.err "User keycode not found", st)
      | some _userKeycode =>
        if mapHas targetSession.webAppConnections keycode then
          (MUJoinResult.err "Keycode already in use", st)
        else
          let target1 :=
            { targetSession with
                webAppConnections := mapSet targetSession.webAppConnections keycode socketId,
                lastActivity := now }
          let st1 :=
            { st with sessions := mapSet st.sessions sessionHash target1,
                      webAppSessions := mapSet st.webAppSessions socketId sessionHash }
          (MUJoinResult.ok sessionHash baseCode keycode target1.users.length target1, st1)

/-- Max idle age of `cleanupInactiveSessions` (`src/server/server.js`
line 352): 2 hours in milliseconds. -/
def muMaxAge : Nat := 2 * 60 * 60 * 1000

/-- The removal condition of `cleanupInactiveSessions` (line 355):
`!session.isActive || (now - session.lastActivity) > maxAge`.  Times are `Nat`;
JS would give a negative difference when `lastActivity > now`, which fails
`> maxAge` exactly as the truncated `Nat` difference does. -/
def muStale (now : Nat) (p : String × MUSession) : Bool :=
  !p.2.isActive || decide (muMaxAge < now - p.2.lastActivity)

/-- The body of the `webAppConnections` cleanup loop (lines 363-367). -/
def muCleanupWebs (acc : MUState) (webs : List (String × String)) : MUState :=
  webs.foldl (fun a q =>
    if q.2 ≠ "" then { a with webAppSessions := mapDelete a.webAppSessions q.2 } else a) acc

/-- One iteration of the cleanup loop (lines 354-369). -/
def muCleanupStep (now : Nat) (acc : MUState) (p : String × MUSession) : MUState :=
  if muStale now p then
    let acc1 := { acc with sessions := mapDelete acc.sessions p.1 }
    let acc2 :=
      match p.2.lensStudioSocket with
      | some ls => { acc1 with userSessions := mapDelete acc1.userSessions ls }
      | none => acc1
    muCleanupWebs acc2 p.2.webAppConnections
  else acc

/-- `cleanupInactiveSessions` (`src/server/server.js` lines 350-370): iterate
over the sessions, deleting every inactive or over-age one together with its
socket mappings. -/
def cleanupInactiveSessions (st : MUState) (now : Nat) : MUState :=
  st.sessions.foldl (muCleanupStep now) st

/-- The `mouth_data` handler (`src/server/server.js` lines 679-717): locate the
session by sender socket, require a Lens Studio socket, validate
`typeof v === 'number' && 0 <= v <= 1` (invalid values are dropped), call
`updateActivity(session.code)` (a no-op — `session.code` is `undefined`) and
forward to the Lens Studio socket.  The forwarded packet is collapsed to
(target socket, openness value). -/
def onMouthData (st : MUState) (socketId : String) (mouthOpenness : JsVal) (now : Nat) :
    MUState × Option (String × ℚ) :=
  match getSessionBySocket st socketId with
  | none => (st, none)
  | some session =>
    match session.lensStudioSocket with
    | none => (st, none)
    | some ls =>
      match mouthOpenness with
      | JsVal.num v =>
        if v < 0 ∨ v > 1 then (st, none)
        else
          let st1 := updateActivity st none now
          (st1, some (ls, v))
      | _ => (st, none)

/-- Observable effects of the `web_app_join_session` Socket.IO handler.
`disconnectEv` is the effect a `socket.disconnect()` call would produce; the
handler never performs it, and the vocabulary includes it so that theorems can
state that the connection is left open. -/
inductive MUEffect where
  | callbackEv (r : MUJoinResult)
  | lensNotifyEv (target event code : String)
  | disconnectEv (socketId : String)
  deriving DecidableEq

/-- `sessionCode.toUpperCase()` (`src/server/server.js` line 639), modelled
character-wise. -/
def jsToUpper (s : String) : String :=
  String.mk (s.toList.map Char.toUpper)

/-- The `web_app_join_session` handler (`src/server/server.js` lines 632-676):
validate that `sessionCode` is a non-empty string of length 7 (after
upper-casing), delegate to `joinSessionWithKeycode`, notify Lens Studio on
success, and report the result through the callback.  Failures only invoke the
callback — the socket is not disconnected. -/
def onWebAppJoinSession (st : MUState) (sessionCode : Option JsVal)
    (socketId : String) (now : Nat) : MUState × List MUEffect :=
  match sessionCode with
  | some (JsVal.str sc) =>
    if sc = "" then (st, [MUEffect.callbackEv (MUJoinResult.err "Invalid session code")])
    else
      let upperCaseCode := jsToUpper sc
      if upperCaseCode.length ≠ 7 then
        (st, [MUEffect.callbackEv (MUJoinResult.err
          "Invalid keycode format. Expected 7-character keycode (e.g., ABC123A)")])
      else
        match joinSessionWithKeycode st upperCaseCode socketId now with
        | (MUJoinResult.ok sid base key n session, st1) =>
          let notif :=
            match session.lensStudioSocket with
            | some ls => [MUEffect.lensNotifyEv ls "web_app_connected" upperCaseCode]
            | none => []
          (st1, notif ++ [MUEffect.callbackEv (MUJoinResult.ok sid base key n session)])
        | (MUJoinResult.err e, st1) => (st1, [MUEffect.callbackEv (MUJoinResult.err e)])
  | _ => (st, [MUEffect.callbackEv (MUJoinResult.err "Invalid session code")])


/- ### Message preprocessing and JSON parsing (`src/server.js` lines 36-48) -/

/-- The opening-brace character, written via its code point. -/
def braceOpen : Char := '\x7b'

/-- The closing-brace character, written via its code point. -/
def braceClose : Char := '\x7d'

/-- Index of the last closing brace in a character list
(`messageStr.lastIndexOf` of the closing brace, `src/server.js` line 40);
`none` models `-1`. -/
def lastBraceIndex : List Char → Option Nat
  | [] => none
  | c :: t =>
    match lastBraceIndex t with
    | some i => some (i + 1)
    | none => if c = braceClose then some 0 else none

/-- Lines 40-43 of `src/server.js`: when the last closing brace exists and is
not the final character, truncate the message just after it.  The JS guard
`lastBraceIndex < messageStr.length - 1` is rendered as
`i + 1 < length` (equivalent over `Nat` since a brace exists only in a
non-empty string). -/
def stripAfterLastBrace (s : String) : String :=
  match lastBraceIndex s.toList with
  | none => s
  | some i =>
    if i + 1 < s.toList.length then String.mk (s.toList.take (i + 1)) else s

/-- JSON values, the result type of `JSON.parse`. -/
inductive JVal where
  | jnull
  | jbool (b : Bool)
  | jnum (q : ℚ)
  | jstr (s : String)
  | jarr (elems : List JVal)
  | jobj (fields : List (String × JVal))

/-- JSON insignificant whitespace. -/
def jsonWs (c : Char) : Bool :=
  c = ' ' || c = '\t' || c = '\n' || c = '\r'

/-- Skip JSON whitespace. -/
def skipWs (cs : List Char) : List Char :=
  cs.dropWhile jsonWs

/-- Value of a hexadecimal digit. -/
def hexVal (c : Char) : Option Nat :=
  if c.isDigit then some (c.toNat - 48)
  else if 'a' ≤ c ∧ c ≤ 'f' then some (c.toNat - 87)
  else if 'A' ≤ c ∧ c ≤ 'F' then some (c.toNat - 55)
  else none

/-- Decimal digits to a natural number. -/
def digitsToNat (ds : List Char) : Nat :=
  ds.foldl (fun n c => n * 10 + (c.toNat - 48)) 0

/-- Parse the body of a JSON string literal (after the opening quote), handling
the escape sequences of the JSON grammar and rejecting raw control
characters. -/
def parseStrBody : List Char → Option (String × List Char)
  | [] => none
  | c :: rest =>
    if c = '"' then some ("", rest)
    else if c = '\\' then
      match rest with
      | [] => none
      | e :: rest2 =>
        let simpleEsc : Option Char :=
          if e = '"' then some '"'
          else if e = '\\' then some '\\'
          else if e = '/' then some '/'
          else if e = 'b' then some (Char.ofNat 8)
          else if e = 'f' then some (Char.ofNat 12)
          else if e = 'n' then some '\n'
          else if e = 'r' then some '\r'
          else if e = 't' then some '\t'
          else none
        match simpleEsc with
        | some ch => (parseStrBody rest2).map (fun p => (String.mk (ch :: p.1.toList), p.2))
        | none =>
          if e = 'u' then
            match rest2 with
            | h1 :: h2 :: h3 :: h4 :: rest3 =>
              match hexVal h1, hexVal h2, hexVal h3, hexVal h4 with
              | some a, some b, some c2, some d =>
                let ch := Char.ofNat (((a * 16 + b) * 16 + c2) * 16 + d)
                (parseStrBody rest3).map (fun p => (String.mk (ch :: p.1.toList), p.2))
              | _, _, _, _ => none
            | _ => none
          else none
    else if c.toNat < 32 then none
    else (parseStrBody rest).map (fun p => (String.mk (c :: p.1.toList), p.2))

/-- Parse the optional exponent part of a JSON number and apply it. -/
def parseExpPart (v : ℚ) (cs : List Char) : Option (ℚ × List Char) :=
  match cs with
  | [] => some (v, cs)
  | c :: t =>
    if c = 'e' ∨ c = 'E' then
      let signRest : Bool × List Char :=
        match t with
        | c2 :: t2 => if c2 = '-' then (true, t2) else if c2 = '+' then (false, t2) else (false, t)
        | [] => (false, t)
      match signRest.2 with
      | [] => none
      | d :: _ =>
        if d.isDigit then
          let e := digitsToNat (signRest.2.takeWhile Char.isDigit)
          let rest := signRest.2.dropWhile Char.isDigit
          some ((if signRest.1 then v / 10 ^ e else v * 10 ^ e), rest)
        else none
    else some (v, cs)

/-- Parse the optional fraction part after the integer part of a JSON number,
then the exponent. -/
def parseFracPart (neg : Bool) (intPart : Nat) (cs : List Char) : Option (ℚ × List Char) :=
  let sgn : ℚ := if neg then -1 else 1
  match cs with
  | [] => some (sgn * (intPart : ℚ), cs)
  | c :: t =>
    if c = '.' then
      match t with
      | [] => none
      | d :: _ =>
        if d.isDigit then
          let fd := t.takeWhile Char.isDigit
          let rest := t.dropWhile Char.isDigit
          parseExpPart (sgn * ((intPart : ℚ) + (digitsToNat fd : ℚ) / 10 ^ fd.length)) rest
        else none
    else parseExpPart (sgn * (intPart : ℚ)) cs

/-- Parse a JSON number (optional minus, integer part with the leading-zero
rule, fraction, exponent). -/
def parseNum (cs : List Char) : Option (ℚ × List Char) :=
  let signRest : Bool × List Char :=
    match cs with
    | c :: t => if c = '-' then (true, t) else (false, cs)
    | [] => (false, cs)
  match signRest.2 with
  | [] => none
  | c :: t =>
    if c = '0' then parseFracPart signRest.1 0 t
    else if c.isDigit then
      parseFracPart signRest.1 (digitsToNat ((c :: t).takeWhile Char.isDigit))
        ((c :: t).dropWhile Char.isDigit)
    else none

mutual

/-- Parse one JSON value (fuelled recursive descent over the JSON grammar,
modelling `JSON.parse`). -/
def parseVal : Nat → List Char → Option (JVal × List Char)
  | 0, _ => none
  | Nat.succ fuel, cs =>
    match skipWs cs with
    | [] => none
    | c :: rest =>
      if c = braceOpen then parseObjBody fuel (skipWs rest)
      else if c = '[' then parseArrBody fuel (skipWs rest)
      else if c = '"' then (parseStrBody rest).map (fun p => (JVal.jstr p.1, p.2))
      else
        match c :: rest with
        | 'n' :: 'u' :: 'l' :: 'l' :: r => some (JVal.jnull, r)
        | 't' :: 'r' :: 'u' :: 'e' :: r => some (JVal.jbool true, r)
        | 'f' :: 'a' :: 'l' :: 's' :: 'e' :: r => some (JVal.jbool false, r)
        | l => (parseNum l).map (fun p => (JVal.jnum p.1, p.2))

/-- Parse the inside of a JSON object, after the opening brace. -/
def parseObjBody : Nat → List Char → Option (JVal × List Char)
  | 0, _ => none
  | Nat.succ fuel, cs =>
    match cs with
    | [] => none
    | c :: rest =>
      if c = braceClose then some (JVal.jobj [], rest)
      else parseMembers fuel cs []

/-- Parse the members of a non-empty JSON object. -/
def parseMembers : Nat → List Char → List (String × JVal) → Option (JVal × List Char)
  | 0, _, _ => none
  | Nat.succ fuel, cs, acc =>
    match skipWs cs with
    | [] => none
    | c :: rest =>
      if c = '"' then
        match parseStrBody rest with
        | none => none
        | some (key, r1) =>
          match skipWs r1 with
          | ':' :: r2 =>
            match parseVal fuel (skipWs r2) with
            | none => none
            | some (v, r3) =>
              match skipWs r3 with
              | [] => none
              | d :: r4 =>
                if d = ',' then parseMembers fuel r4 (acc ++ [(key, v)])
                else if d = braceClose then some (JVal.jobj (acc ++ [(key, v)]), r4)
                else none
          | _ => none
      else none

/-- Parse the inside of a JSON array, after the opening bracket. -/
def parseArrBody : Nat → List Char → Option (JVal × List Char)
  | 0, _ => none
  | Nat.succ fuel, cs =>
    match cs with
    | [] => none
    | c :: rest =>
      if c = ']' then some (JVal.jarr [], rest)
      else parseElems fuel cs []

/-- Parse the elements of a non-empty JSON array. -/
def parseElems : Nat → List Char → List JVal → Option (JVal × List Char)
  | 0, _, _ => none
  | Nat.succ fuel, cs, acc =>
    match parseVal fuel cs with
    | none => none
    | some (v, r1) =>
      match skipWs r1 with
      | ',' :: r2 => parseElems fuel r2 (acc ++ [v])
      | ']' :: r2 => some (JVal.jarr (acc ++ [v]), r2)
      | _ => none

end

/-- `JSON.parse`: parse one value and require only whitespace to follow.
The fuel is ample for the input's length, and the theorems below never depend
on its exact amount — equal inputs parse equally. -/
def parseJson (s : String) : Option JVal :=
  match parseVal (s.toList.length + 2) s.toList with
  | some (v, rest) => if skipWs rest = [] then some v else none
  | none => none

/-- Lines 38-48 of `src/server.js`: `data` as the message dispatcher sees it —
strip after the last closing brace, then `JSON.parse`; `none` means the parse
threw and the message was dropped. -/
def parseMessage (raw : String) : Option JVal :=
  parseJson (stripAfterLastBrace raw)

/- ### Concrete states used in counterexamples and witnesses -/

/-- A connection as `wss.on('connection')` creates it (`src/server.js`
lines 32-34): unclassified and open. -/
def freshConn : Conn :=
  { info := { ctype := none, sessionHash := none, connectionId := none, fullKeycode := none },
    readyState := wsOPEN, closed := false }

/-- The draw producing the base code `"ABCDEF"` from `CHARS`. -/
def drawABCDEF : Fin 6 → Fin CHARS.length := fun i => Fin.castLE (by decide) i

/-- The draw producing the base code `"BBBBBB"` from `CHARS`. -/
def drawBBBBBB : Fin 6 → Fin CHARS.length := fun _ => ⟨1, by decide⟩

/-- A lens-host connection of session `"H"`. -/
def hostConnEx : Conn :=
  { info := { ctype := some CType.lensHost, sessionHash := some "H",
              connectionId := some "h1", fullKeycode := none },
    readyState := wsOPEN, closed := false }

/-- A second lens connection of session `"H"`. -/
def lensConnEx : Conn :=
  { info := { ctype := some CType.lensClient, sessionHash := some "H",
              connectionId := some "h2", fullKeycode := none },
    readyState := wsOPEN, closed := false }

/-- A web connection attached to code `"ABCDEFA"` of session `"H"`. -/
def webConnEx : Conn :=
  { info := { ctype := some CType.webApp, sessionHash := some "H",
              connectionId := none, fullKeycode := some "ABCDEFA" },
    readyState := wsOPEN, closed := false }

/-- Session `"H"` with one lens host owning the registered code `"ABCDEFA"`. -/
def sessEx : Session :=
  { baseSessionCode := "ABCDEF", lensClients := [("h1", 0)],
    userCodeMap := [("ABCDEFA", "h1")] }

/-- A `src/server.js` state in which the full code `"ABCDEFA"` is registered
and currently claimed by the live web connection `1`; connection `2` is a
fresh web connection about to claim the same code. -/
def stClaimed : SState :=
  { conns := [(0, hostConnEx), (1, webConnEx), (2, freshConn)],
    sessions := [("H", sessEx)],
    webClients := [("ABCDEFA", 1)],
    activeBaseCodes := ["ABCDEF"],
    sent := [] }

/-- Session `"H"` with a second lens client `"h2"` on socket `3`, so that
telemetry from code `"ABCDEFA"` (owned by `"h1"`) has a recipient. -/
def sessTwoLens : Session :=
  { baseSessionCode := "ABCDEF", lensClients := [("h1", 0), ("h2", 3)],
    userCodeMap := [("ABCDEFA", "h1")] }

/-- A `src/server.js` state with two lens connections and a claimed web
sender. -/
def stTwoLens : SState :=
  { conns := [(0, hostConnEx), (1, webConnEx), (3, lensConnEx)],
    sessions := [("H", sessTwoLens)],
    webClients := [("ABCDEFA", 1)],
    activeBaseCodes := ["ABCDEF"],
    sent := [] }

/-- A `src/server.js` state holding a live session under hash `"H"`, for the
duplicate session-request scenario; socket `5` is a fresh connection issuing
the second request. -/
def stDupKey : SState :=
  { conns := [(0, hostConnEx), (5, freshConn)],
    sessions := [("H", { baseSessionCode := "ABCDEF", lensClients := [("h1", 0)],
                         userCodeMap := [] })],
    webClients := [],
    activeBaseCodes := ["ABCDEF"],
    sent := [] }

/-- Start state of the host-teardown trace: a bare server with two fresh
connections `0` (the future host) and `1` (the future web claimant). -/
def stTrace0 : SState :=
  { conns := [(0, freshConn), (1, freshConn)], sessions := [], webClients := [],
    activeBaseCodes := [], sent := [] }

/-- Trace step 1: connection `0` requests a session with hash `"H"`,
drawing the base code `"ABCDEF"`. -/
def stTrace1 : SState :=
  handleHostSessionRequest stTrace0 0 (some "H") (some "h1") [drawABCDEF]

/-- Trace step 2: the lens side registers the full code `"ABCDEFA"` for the
host's own connection id `"h1"`. -/
def stTrace2 : SState :=
  handleUserKeycodeAssignment stTrace1 (some "H")
    (some { connectionId := some "h1", fullKeycode := "ABCDEFA", displayName := "Host" })

/-- Trace step 3: web connection `1` claims `"ABCDEFA"`. -/
def stTrace3 : SState :=
  handleWebAppConnection stTrace2 1 (some "ABCDEFA")

/-- Trace step 4: the sole host connection `0` closes. -/
def stTrace4 : SState :=
  handleDisconnection stTrace3 0

/-- A user slot of the multi-user session used in examples. -/
def muUserEx : MUUser :=
  { connectionId := "c1", userId := "u1", displayName := "Ann", keycodeChar := "A",
    fullKeycode := "BCDFGHA", webAppSocketId := none }

/-- A live multi-user session with base code `"BCDFGH"` and one registered,
unclaimed slot `"BCDFGHA"`. -/
def muSessEx : MUSession :=
  { sessionHash := "mh1", baseCode := "BCDFGH", lensStudioSocket := some "ls1",
    users := [muUserEx], webAppConnections := [], createdAt := 0, lastActivity := 0,
    isActive := true }

/-- A `MultiUserSessionManager` state holding `muSessEx`. -/
def muStEx : MUState :=
  { sessions := [("mh1", muSessEx)], userSessions := [("ls1", "mh1")],
    webAppSessions := [] }

/-- `muStEx` with a web sender `"w9"` attached to the session, used for the
`mouth_data` scenarios. -/
def muStWeb : MUState :=
  { sessions := [("mh1", muSessEx)], userSessions := [("ls1", "mh1")],
    webAppSessions := [("w9", "mh1")] }

/-- A session whose hash is `"h1"` and whose base code is `"AAAAAA"`. -/
def muSessAAA : MUSession :=
  { sessionHash := "h1", baseCode := "AAAAAA", lensStudioSocket := some "ls1",
    users := [], webAppConnections := [], createdAt := 0, lastActivity := 0,
    isActive := true }

/-- The draw producing base code `"AAAAAA"` from `muChars`. -/
def muDrawAAA : Fin 6 → Fin muChars.length := fun _ => ⟨0, by decide⟩

/-- An inactive (but recently active) session and a fresh active one, for the
idle-sweep scenarios. -/
def muSessInactive : MUSession :=
  { sessionHash := "I", baseCode := "DDDDDD", lensStudioSocket := none,
    users := [], webAppConnections := [], createdAt := 0, lastActivity := 100,
    isActive := false }

/-- An active session with `lastActivity = 100`. -/
def muSessFresh : MUSession :=
  { sessionHash := "F", baseCode := "EEEEEE", lensStudioSocket := some "ls2",
    users := [], webAppConnections := [], createdAt := 0, lastActivity := 100,
    isActive := true }

/-- A manager state holding the inactive and the fresh session. -/
def muStSweep : MUState :=
  { sessions := [("I", muSessInactive), ("F", muSessFresh)],
    userSessions := [("ls2", "F")], webAppSessions := [] }

/- ### Shared lemmas about the map primitives -/

theorem mapGet_mapSet_self {α β : Type} [DecidableEq α] (m : List (α × β)) (k : α) (v : β) :
    mapGet (mapSet m k v) k = some v := by
  induction m with
  | nil => simp [mapSet, mapGet]
  | cons p t ih =>
    obtain ⟨a, b⟩ := p
    by_cases h : a = k
    · simp [mapSet, h, mapGet]
    · simp [mapSet, h, mapGet, ih]

theorem mapHas_mapSet_self {α β : Type} [DecidableEq α] (m : List (α × β)) (k : α) (v : β) :
    mapHas (mapSet m k v) k = true := by
  simp [mapHas, mapGet_mapSet_self]

theorem mapGet_mem {α β : Type} [DecidableEq α] {m : List (α × β)} {k : α} {v : β}
    (h : mapGet m k = some v) : (k, v) ∈ m := by
  induction m with
  | nil => simp [mapGet] at h
  | cons p t ih =>
    obtain ⟨a, b⟩ := p
    by_cases hak : a = k
    · subst hak
      simp [mapGet] at h
      simp [h]
    · simp [mapGet, hak] at h
      exact List.mem_cons_of_mem _ (ih h)

theorem mapGet_eq_none_of_not_keys {α β : Type} [DecidableEq α] {m : List (α × β)} {k : α}
    (h : k ∉ m.map Prod.fst) : mapGet m k = none := by
  induction m with
  | nil => rfl
  | cons p t ih =>
    obtain ⟨a, b⟩ := p
    simp only [List.map_cons, List.mem_cons, not_or] at h
    have hak : ¬ a = k := fun hh => h.1 hh.symm
    simp [mapGet, hak, ih h.2]

theorem mapGet_of_mem_nodup {α β : Type} [DecidableEq α] {m : List (α × β)} {k : α} {v : β}
    (hnd : (m.map Prod.fst).Nodup) (h : (k, v) ∈ m) : mapGet m k = some v := by
  induction m with
  | nil => simp at h
  | cons p t ih =>
    obtain ⟨a, b⟩ := p
    simp only [List.map_cons, List.nodup_cons] at hnd
    rcases List.mem_cons.1 h with heq | hmem
    · obtain ⟨rfl, rfl⟩ := Prod.mk.injEq .. ▸ heq
      simp [mapGet]
    · have hak : a ≠ k := by
        intro hh
        subst hh
        exact hnd.1 (List.mem_map_of_mem Prod.fst hmem)
      simp [mapGet, hak, ih hnd.2 hmem]

theorem mapDelete_sublist {α β : Type} [DecidableEq α] (m : List (α × β)) (k : α) :
    (mapDelete m k).Sublist m := by
  induction m with
  | nil => simp [mapDelete]
  | cons p t ih =>
    obtain ⟨a, b⟩ := p
    by_cases h : a = k
    · simp only [mapDelete, if_pos h]
      exact List.Sublist.cons (a, b) (List.Sublist.refl t)
    · simpa [mapDelete, h] using List.Sublist.cons₂ (a, b) ih

theorem keys_nodup_mapDelete {α β : Type} [DecidableEq α] {m : List (α × β)} (k : α)
    (hnd : (m.map Prod.fst).Nodup) : ((mapDelete m k).map Prod.fst).Nodup :=
  List.Nodup.sublist (List.Sublist.map Prod.fst (mapDelete_sublist m k)) hnd

theorem mapGet_mapDelete_ne {α β : Type} [DecidableEq α] (m : List (α × β)) {k key : α}
    (h : k ≠ key) : mapGet (mapDelete m k) key = mapGet m key := by
  induction m with
  | nil => rfl
  | cons p t ih =>
    obtain ⟨a, b⟩ := p
    by_cases hak : a = k
    · have hakey : ¬ a = key := by rw [hak]; exact h
      rw [show mapDelete ((a, b) :: t) k = t by simp [mapDelete, hak]]
      simp [mapGet, hakey]
    · rw [show mapDelete ((a, b) :: t) k = (a, b) :: mapDelete t k by simp [mapDelete, hak]]
      by_cases hakey : a = key
      · simp [mapGet, hakey]
      · simp [mapGet, hakey, ih]

theorem mapGet_mapDelete_self {α β : Type} [DecidableEq α] {m : List (α × β)} (k : α)
    (hnd : (m.map Prod.fst).Nodup) : mapGet (mapDelete m k) k = none := by
  induction m with
  | nil => rfl
  | cons p t ih =>
    obtain ⟨a, b⟩ := p
    simp only [List.map_cons, List.nodup_cons] at hnd
    by_cases hak : a = k
    · subst hak
      simp only [mapDelete, if_pos rfl]
      exact mapGet_eq_none_of_not_keys hnd.1
    · simp [mapDelete, mapGet, hak, ih hnd.2]

theorem mapGet_mapDelete_none {α β : Type} [DecidableEq α] {m : List (α × β)} {key : α} (k : α)
    (h : mapGet m key = none) : mapGet (mapDelete m k) key = none := by
  induction m with
  | nil => rfl
  | cons p t ih =>
    obtain ⟨a, b⟩ := p
    by_cases hakey : a = key
    · simp [mapGet, hakey] at h
    · by_cases hak : a = k
      · simp only [mapDelete, hak, if_pos rfl]
        simpa [mapGet, hakey] using h
      · simp only [mapGet, hakey, if_neg hakey] at h
        simp [mapDelete, hak, mapGet, hakey, ih h]

theorem find?_mapSet {α β : Type} [DecidableEq α] {m : List (α × β)} {p : α × β → Bool}
    {k : α} {s : β} (s' : β) (hnd : (m.map Prod.fst).Nodup)
    (hfind : m.find? p = some (k, s)) (hp : p (k, s') = true) :
    (mapSet m k s').find? p = some (k, s') := by
  induction m with
  | nil => simp at hfind
  | cons a t ih =>
    obtain ⟨a1, a2⟩ := a
    simp only [List.map_cons, List.nodup_cons] at hnd
    by_cases hpa : p (a1, a2) = true
    · have heq : (a1, a2) = (k, s) := by
        have := hfind
        rwa [List.find?_cons_of_pos _ hpa, Option.some.injEq] at this
      obtain ⟨h1, _⟩ := Prod.mk.injEq .. ▸ heq
      subst h1
      simp [mapSet, List.find?_cons_of_pos _ hp]
    · have hfind2 : t.find? p = some (k, s) := by
        rwa [List.find?_cons_of_neg _ (by simpa using hpa)] at hfind
      have hak : a1 ≠ k := by
        intro hh
        subst hh
        exact hnd.1 (List.mem_map_of_mem Prod.fst (List.mem_of_find?_eq_some hfind2))
      rw [show mapSet ((a1, a2) :: t) k s' = (a1, a2) :: mapSet t k s' by simp [mapSet, hak]]
      rw [List.find?_cons_of_neg _ (by simpa using hpa)]
      exact ih hnd.2 hfind2

theorem generateUniqueBaseCode_mono :
    ∀ (draws : List (Fin 6 → Fin CHARS.length)) (act : List String) (c : String)
      (act1 : List String),
      generateUniqueBaseCode draws act = some (c, act1) → ∀ x ∈ act, x ∈ act1 := by
  intro draws
  induction draws with
  | nil => intro act c act1 h; simp [generateUniqueBaseCode] at h
  | cons d rest ih =>
    intro act c act1 h x hx
    rw [generateUniqueBaseCode] at h
    by_cases hmem : codeOfDraw d ∈ act
    · exact ih act c act1 (by simpa [hmem] using h) x hx
    · simp only [hmem, if_false, if_neg hmem, Option.some.injEq, Prod.mk.injEq] at h
      rw [← h.2]
      exact List.mem_append_left _ hx

/- ### Lemmas about the idle sweep -/

theorem muCleanupWebs_sessions :
    ∀ (webs : List (String × String)) (acc : MUState),
      (muCleanupWebs acc webs).sessions = acc.sessions := by
  intro webs
  induction webs with
  | nil => intro acc; rfl
  | cons q t ih =>
    intro acc
    have hstep : muCleanupWebs acc (q :: t) =
        muCleanupWebs
          (if q.2 ≠ "" then { acc with webAppSessions := mapDelete acc.webAppSessions q.2 }
           else acc) t := rfl
    rw [hstep, ih]
    split <;> rfl

theorem muCleanupStep_sessions (now : Nat) (acc : MUState) (p : String × MUSession) :
    (muCleanupStep now acc p).sessions =
      if muStale now p then mapDelete acc.sessions p.1 else acc.sessions := by
  unfold muCleanupStep
  split
  · rw [muCleanupWebs_sessions]
    cases p.2.lensStudioSocket <;> rfl
  · rfl

theorem cleanup_sessions_foldl (now : Nat) :
    ∀ (L : List (String × MUSession)) (acc : MUState),
      (L.foldl (muCleanupStep now) acc).sessions =
        L.foldl (fun m p => if muStale now p then mapDelete m p.1 else m) acc.sessions := by
  intro L
  induction L with
  | nil => intro acc; rfl
  | cons p t ih =>
    intro acc
    rw [List.foldl_cons, List.foldl_cons, ih, muCleanupStep_sessions]

theorem mapGet_foldl_delete_none (now : Nat) :
    ∀ (L : List (String × MUSession)) (m : List (String × MUSession)) (h : String),
      mapGet m h = none →
      mapGet (L.foldl (fun m p => if muStale now p then mapDelete m p.1 else m) m) h = none := by
  intro L
  induction L with
  | nil => intro m h hm; exact hm
  | cons p t ih =>
    intro m h hm
    rw [List.foldl_cons]
    refine ih _ h ?_
    split
    · exact mapGet_mapDelete_none p.1 hm
    · exact hm

theorem mapGet_foldl_delete (now : Nat) :
    ∀ (L : List (String × MUSession)) (m : List (String × MUSession)) (h : String),
      (m.map Prod.fst).Nodup →
      mapGet (L.foldl (fun m p => if muStale now p then mapDelete m p.1 else m) m) h =
        if L.any (fun p => p.1 = h && muStale now p) then none else mapGet m h := by
  intro L
  induction L with
  | nil => intro m h _; simp
  | cons p t ih =>
    intro m h hnd
    rw [List.foldl_cons, List.any_cons]
    by_cases hst : muStale now p = true
    · by_cases hph : p.1 = h
      · subst hph
        have h0 : mapGet (mapDelete m p.1) p.1 = none := mapGet_mapDelete_self p.1 hnd
        have := mapGet_foldl_delete_none now t (mapDelete m p.1) p.1 h0
        simp only [if_pos hst]
        simp [hst, this]
      · simp only [if_pos hst]
        rw [ih (mapDelete m p.1) h (keys_nodup_mapDelete p.1 hnd)]
        rw [mapGet_mapDelete_ne _ hph]
        have hdec : decide (p.1 = h) = false := by simp [hph]
        rw [hdec, Bool.false_and, Bool.false_or]
    · have hfalse : muStale now p = false := by simpa using hst
      simp only [hfalse, Bool.and_false, Bool.false_or, Bool.false_eq_true, if_false]
      exact ih m h hnd

/- ### Claim theorems -/

/-- C3 (code bug): after the trace host-request, keycode-assignment for the
host's own connection, web claim, host disconnect, the session is deleted and
its base code released, yet the web connection claimed under the host's own
full code `"ABCDEFA"` is neither closed nor removed from `webClients` —
because line 165 of `src/server.js` deletes the host's own `fullKeycode` from
`userCodeMap` before the teardown sweep of lines 169-175 runs. -/
theorem claim3_hostTeardown :
    mapGet stTrace3.webClients "ABCDEFA" = some 1
    ∧ (mapGet stTrace3.conns 0).map (fun c => c.info.ctype) = some (some CType.lensHost)
    ∧ mapGet stTrace4.sessions "H" = none
    ∧ stTrace4.activeBaseCodes = []
    ∧ mapGet stTrace4.webClients "ABCDEFA" = some 1
    ∧ (mapGet stTrace4.conns 1).map Conn.closed = some false := by decide

/-- C4 (code bug): `generateBaseSessionCode` checks candidate codes against the
session-hash keys of `sessions`, not against base codes in use, so it returns
`"AAAAAA"` even though the live session stored under hash `"h1"` already holds
base code `"AAAAAA"` — two simultaneously live sessions can share a display
code, contradicting the source's own `// Ensure uniqueness` comment. -/
theorem claim4_dupBaseCode :
    generateBaseSessionCode [muDrawAAA] [("h1", muSessAAA)] = some "AAAAAA"
    ∧ mapGet [("h1", muSessAAA)] "h1" = some muSessAAA
    ∧ muSessAAA.baseCode = "AAAAAA"
    ∧ mapHas [("h1", muSessAAA)] "AAAAAA" = false := by decide

/-- C6 (counterexample): a session marked inactive is removed by the sweep even
though its last activity is well within the 2-hour window, falsifying "each
session whose last-activity is within the window survives the sweep". -/
theorem claim6_counterexample :
    muSessInactive.lastActivity = 100
    ∧ 100 - muSessInactive.lastActivity ≤ muMaxAge
    ∧ mapGet muStSweep.sessions "I" = some muSessInactive
    ∧ mapGet (cleanupInactiveSessions muStSweep 100).sessions "I" = none := by decide

/-- The removal condition is false exactly when the session is active and
within the idle window. -/
theorem muStale_false_iff (now : Nat) (p : String × MUSession) :
    muStale now p = false ↔ (p.2.isActive = true ∧ now - p.2.lastActivity ≤ muMaxAge) := by
  unfold muStale
  cases hA : p.2.isActive <;> simp [hA, not_lt]

/-- C6 (amended): on a sweep at time `now`, a session survives exactly when it
is still marked active and its last activity is within the 2-hour window; a
session that is over-age or marked inactive is removed. -/
theorem claim6_amended (st : MUState) (now : Nat)
    (hnd : (st.sessions.map Prod.fst).Nodup) (h : String) (s : MUSession) :
    mapGet (cleanupInactiveSessions st now).sessions h = some s ↔
      (mapGet st.sessions h = some s ∧ s.isActive = true ∧ now - s.lastActivity ≤ muMaxAge) := by
  unfold cleanupInactiveSessions
  rw [cleanup_sessions_foldl, mapGet_foldl_delete now _ _ _ hnd]
  constructor
  · intro hl
    by_cases hany : (st.sessions.any fun p => p.1 = h && muStale now p) = true
    · rw [if_pos hany] at hl
      exact absurd hl (by simp)
    · rw [if_neg hany] at hl
      have hnp := List.any_eq_false.1 (Bool.eq_false_iff.mpr hany) (h, s) (mapGet_mem hl)
      have hm : muStale now (h, s) = false := by
        cases hval : muStale now (h, s)
        · rfl
        · exact absurd (by simp [hval]) hnp
      have hprops := (muStale_false_iff now (h, s)).1 hm
      exact ⟨hl, hprops.1, hprops.2⟩
  · rintro ⟨hget, hact, hle⟩
    have hany : (st.sessions.any fun p => p.1 = h && muStale now p) = false := by
      rw [List.any_eq_false]
      rintro ⟨a, b⟩ hp hx
      rw [Bool.and_eq_true] at hx
      have hah : a = h := of_decide_eq_true hx.1
      have hb : b = s := by
        have hg := mapGet_of_mem_nodup hnd hp
        rw [hah, hget] at hg
        exact (Option.some.injEq .. ▸ hg).symm
      have hstale := hx.2
      rw [hah, hb] at hstale
      have hm := (muStale_false_iff now (h, s)).mpr ⟨hact, hle⟩
      rw [hm] at hstale
      exact absurd hstale (by simp)
    rw [if_neg (by simp [hany])]
    exact hget

/-- C6 (witness): the fresh active session `"F"` survives a sweep at time 100. -/
theorem claim6_witness :
    mapGet (cleanupInactiveSessions muStSweep 100).sessions "F" = some muSessFresh :=
  (claim6_amended muStSweep 100 (by decide) "F" muSessFresh).mpr (by decide)

/-- The session object after a successful web-app join (the in-place mutation
of `joinSessionWithKeycode`, `src/server/server.js` lines 333-335). -/
def muAfterJoin (s0 : MUSession) (keycode socketId : String) (now : Nat) : MUSession :=
  { s0 with webAppConnections := mapSet s0.webAppConnections keycode socketId,
            lastActivity := now }

/-- The manager state after a successful web-app join. -/
def muStAfterJoin (st : MUState) (sessionHash : String) (s0 : MUSession)
    (keycode socketId : String) (now : Nat) : MUState :=
  { st with sessions := mapSet st.sessions sessionHash (muAfterJoin s0 keycode socketId now),
            webAppSessions := mapSet st.webAppSessions socketId sessionHash }

/-- C1 (counterexample, `src/server.js`): the full code `"ABCDEFA"` is claimed
by the live web connection `1`, yet a second web connection `2` claiming the
same code receives `connection_successful` — no `CodeAlreadyInUse`-style error
exists in this handler — and the attachment silently moves to connection `2`. -/
theorem claim1_counterexample :
    mapGet stClaimed.webClients "ABCDEFA" = some 1
    ∧ (mapGet stClaimed.conns 1).map Conn.closed = some false
    ∧ mapGet (handleWebAppConnection stClaimed 2 (some "ABCDEFA")).webClients "ABCDEFA" = some 2
    ∧ (2, OutMsg.connectionSuccessful) ∈ (handleWebAppConnection stClaimed 2 (some "ABCDEFA")).sent
    ∧ (mapGet (handleWebAppConnection stClaimed 2 (some "ABCDEFA")).conns 2).map Conn.closed
        = some false := by decide

/-- C1 (amended, `src/server/server.js`): when the keycode resolves to a
session slot that is not yet claimed, the first join succeeds; a second join
with the same keycode against the resulting state fails with
`"Keycode already in use"` and leaves the state unchanged — sequentially (the
single-threaded event loop serialises the two racing claims), exactly one of
the two succeeds. -/
theorem claim1_amended (st : MUState) (keycode sock1 sock2 : String) (t1 t2 : Nat)
    (sessionHash : String) (s0 : MUSession) (u : MUUser)
    (hnd : (st.sessions.map Prod.fst).Nodup)
    (hlen : keycode.length = 7)
    (hfind : st.sessions.find? (fun p => p.2.baseCode = keycode.take 6)
        = some (sessionHash, s0))
    (huser : s0.users.find? (fun v => v.keycodeChar = keycode.drop 6) = some u)
    (hfree : mapHas s0.webAppConnections keycode = false) :
    joinSessionWithKeycode st keycode sock1 t1
        = (MUJoinResult.ok sessionHash (keycode.take 6) keycode s0.users.length
            (muAfterJoin s0 keycode sock1 t1),
           muStAfterJoin st sessionHash s0 keycode sock1 t1)
    ∧ joinSessionWithKeycode (muStAfterJoin st sessionHash s0 keycode sock1 t1)
          keycode sock2 t2
        = (MUJoinResult.err "Keycode already in use",
           muStAfterJoin st sessionHash s0 keycode sock1 t1) := by
  have hfirst : joinSessionWithKeycode st keycode sock1 t1
      = (MUJoinResult.ok sessionHash (keycode.take 6) keycode s0.users.length
          (muAfterJoin s0 keycode sock1 t1),
         muStAfterJoin st sessionHash s0 keycode sock1 t1) := by
    simp [joinSessionWithKeycode, hlen, hfind, huser, hfree, muAfterJoin, muStAfterJoin]
  refine ⟨hfirst, ?_⟩
  have hfind2 : (muStAfterJoin st sessionHash s0 keycode sock1 t1).sessions.find?
      (fun p => p.2.baseCode = keycode.take 6)
      = some (sessionHash, muAfterJoin s0 keycode sock1 t1) := by
    have hp : (fun (p : String × MUSession) => decide (p.2.baseCode = keycode.take 6))
        (sessionHash, muAfterJoin s0 keycode sock1 t1) = true := by
      have := List.find?_some hfind
      simpa [muAfterJoin] using this
    exact find?_mapSet (muAfterJoin s0 keycode sock1 t1) hnd hfind hp
  have htaken : mapHas (muAfterJoin s0 keycode sock1 t1).webAppConnections keycode = true := by
    simp [muAfterJoin, mapHas_mapSet_self]
  simp [joinSessionWithKeycode, hlen, hfind2, huser, htaken, muAfterJoin, mapHas_mapSet_self]

/-- C1 (witness): in the concrete state `muStEx`, web socket `"w1"` claims
`"BCDFGHA"` successfully and a racing claim by `"w2"` is rejected. -/
theorem claim1_witness :
    joinSessionWithKeycode muStEx "BCDFGHA" "w1" 3
        = (MUJoinResult.ok "mh1" "BCDFGH" "BCDFGHA" 1 (muAfterJoin muSessEx "BCDFGHA" "w1" 3),
           muStAfterJoin muStEx "mh1" muSessEx "BCDFGHA" "w1" 3)
    ∧ joinSessionWithKeycode (muStAfterJoin muStEx "mh1" muSessEx "BCDFGHA" "w1" 3)
          "BCDFGHA" "w2" 4
        = (MUJoinResult.err "Keycode already in use",
           muStAfterJoin muStEx "mh1" muSessEx "BCDFGHA" "w1" 3) :=
  claim1_amended muStEx "BCDFGHA" "w1" "w2" 3 4 "mh1" muSessEx muUserEx
    (by decide) (by decide) (by decide) (by decide) (by decide)

/-- C2 (counterexample, `src/server.js`): `handleMouthData` forwards the
openness value without any validation — the out-of-range value `2` and the
non-numeric value `"abc"` are both forwarded to the lens (host-side)
connection `3`. -/
theorem claim2_counterexample :
    ((2 : ℚ) > 1
      ∧ (3, OutMsg.mouthData "ABCDEFA" (JsVal.num 2) 7) ∈
          (handleMouthData stTwoLens (some "ABCDEFA") (JsVal.num 2) 7).sent)
    ∧ (3, OutMsg.mouthData "ABCDEFA" (JsVal.str "abc") 7) ∈
        (handleMouthData stTwoLens (some "ABCDEFA") (JsVal.str "abc") 7).sent := by
  exact ⟨⟨by norm_num, by decide⟩, by decide⟩

/-- C2 (amended, `src/server/server.js`): the Socket.IO `mouth_data` handler
drops non-numeric and out-of-range openness values silently (state unchanged,
nothing forwarded) and forwards every value in the closed interval `[0, 1]` —
both boundaries included — to the session's Lens Studio socket. -/
theorem claim2_amended (st : MUState) (socketId : String) (s : MUSession) (ls : String)
    (now : Nat)
    (h1 : getSessionBySocket st socketId = some s)
    (h2 : s.lensStudioSocket = some ls) :
    (∀ v : ℚ, v < 0 ∨ 1 < v → onMouthData st socketId (JsVal.num v) now = (st, none))
    ∧ (∀ txt : String, onMouthData st socketId (JsVal.str txt) now = (st, none))
    ∧ (∀ v : ℚ, 0 ≤ v → v ≤ 1 → onMouthData st socketId (JsVal.num v) now = (st, some (ls, v))) := by
  refine ⟨?_, ?_, ?_⟩
  · intro v hv
    simp [onMouthData, h1, h2, hv]
  · intro txt
    simp [onMouthData, h1, h2]
  · intro v h0 hle
    have hnot : ¬ (v < 0 ∨ 1 < v) := by
      push_neg
      exact ⟨h0, hle⟩
    simp [onMouthData, h1, h2, hnot, updateActivity]

/-- C2 (witness): in `muStWeb`, the web sender `"w9"` has value `2` and
`"abc"` dropped, while the boundary values `0` and `1` are forwarded to
`"ls1"`. -/
theorem claim2_witness :
    onMouthData muStWeb "w9" (JsVal.num 2) 5 = (muStWeb, none)
    ∧ onMouthData muStWeb "w9" (JsVal.str "abc") 5 = (muStWeb, none)
    ∧ onMouthData muStWeb "w9" (JsVal.num 0) 5 = (muStWeb, some ("ls1", 0))
    ∧ onMouthData muStWeb "w9" (JsVal.num 1) 5 = (muStWeb, some ("ls1", 1)) := by
  have h := claim2_amended muStWeb "w9" muSessEx "ls1" 5 (by decide) rfl
  exact ⟨h.1 2 (Or.inr (by norm_num)), h.2.1 "abc", h.2.2 0 le_rfl (by norm_num),
         h.2.2 1 (by norm_num) le_rfl⟩

/-- C5 (counterexample, `src/server.js`): a second `lens_studio_request_session`
with the sessionHash `"H"` of a live session does not fail — it succeeds with a
fresh code `"BBBBBB"` and silently replaces the existing session. -/
theorem claim5_counterexample :
    mapGet stDupKey.sessions "H"
        = some { baseSessionCode := "ABCDEF", lensClients := [("h1", 0)], userCodeMap := [] }
    ∧ mapGet (handleHostSessionRequest stDupKey 5 (some "H") (some "h2") [drawBBBBBB]).sessions "H"
        = some { baseSessionCode := "BBBBBB", lensClients := [("h2", 5)], userCodeMap := [] }
    ∧ (5, OutMsg.sessionResponse true "BBBBBB" "H") ∈
        (handleHostSessionRequest stDupKey 5 (some "H") (some "h2") [drawBBBBBB]).sent := by
  decide

/-- C5 (amended): a session-request whose sessionKey already maps to a live
session succeeds: it stores a brand-new session (fresh display code, only the
requesting connection) under that key, replacing the old session, answers with
a success response, and never releases the old session's display code. -/
theorem claim5_amended (st : SState) (w : Nat) (sessionHash connId : String)
    (draws : List (Fin 6 → Fin CHARS.length)) (code : String) (active1 : List String)
    (old : Session)
    (hh : sessionHash ≠ "") (hc : connId ≠ "")
    (_hold : mapGet st.sessions sessionHash = some old)
    (hgen : generateUniqueBaseCode draws st.activeBaseCodes = some (code, active1)) :
    mapGet (handleHostSessionRequest st w (some sessionHash) (some connId) draws).sessions
        sessionHash
      = some { baseSessionCode := code, lensClients := [(connId, w)], userCodeMap := [] }
    ∧ (handleHostSessionRequest st w (some sessionHash) (some connId) draws).sent
      = st.sent ++ [(w, OutMsg.sessionResponse true code sessionHash)]
    ∧ ∀ x ∈ st.activeBaseCodes,
        x ∈ (handleHostSessionRequest st w (some sessionHash) (some connId) draws).activeBaseCodes := by
  have hred : handleHostSessionRequest st w (some sessionHash) (some connId) draws
      = sendMsg (setConnInfo
          { st with activeBaseCodes := active1,
                    sessions := mapSet st.sessions sessionHash
                      { baseSessionCode := code, lensClients := [(connId, w)], userCodeMap := [] } }
          w { ctype := some CType.lensHost, sessionHash := some sessionHash,
              connectionId := some connId, fullKeycode := none })
          w (OutMsg.sessionResponse true code sessionHash) := by
    simp [handleHostSessionRequest, hh, hc, hgen]
  rw [hred]
  refine ⟨?_, rfl, ?_⟩
  · simpa [sendMsg, setConnInfo] using
      mapGet_mapSet_self st.sessions sessionHash
        { baseSessionCode := code, lensClients := [(connId, w)], userCodeMap := [] }
  · intro x hx
    simpa [sendMsg, setConnInfo] using generateUniqueBaseCode_mono draws _ _ _ hgen x hx

/-- C5 (witness): the amended behaviour at the concrete duplicate-key state. -/
theorem claim5_witness :
    mapGet (handleHostSessionRequest stDupKey 5 (some "H") (some "h2") [drawBBBBBB]).sessions "H"
      = some { baseSessionCode := "BBBBBB", lensClients := [("h2", 5)], userCodeMap := [] }
    ∧ (handleHostSessionRequest stDupKey 5 (some "H") (some "h2") [drawBBBBBB]).sent
      = stDupKey.sent ++ [(5, OutMsg.sessionResponse true "BBBBBB" "H")]
    ∧ ∀ x ∈ stDupKey.activeBaseCodes,
        x ∈ (handleHostSessionRequest stDupKey 5 (some "H") (some "h2") [drawBBBBBB]).activeBaseCodes :=
  claim5_amended stDupKey 5 "H" "h2" [drawBBBBBB] "BBBBBB" ["ABCDEF", "BBBBBB"]
    { baseSessionCode := "ABCDEF", lensClients := [("h1", 0)], userCodeMap := [] }
    (by decide) (by decide) (by decide) (by decide)

/-- C7 (amended, `src/server.js` part): for every web connect-request whose
code is missing, of the wrong length, without a session for its 6-character
prefix, or not registered in the found session's `userCodeMap`, the handler
sends one error message and closes the connection, and the registry
(`sessions`, `webClients`, `activeBaseCodes`) is left unchanged. -/
theorem claim7_amended (st : SState) (w : Nat) (sevenCharCode : Option String)
    (h : sevenCharCode = none
      ∨ (∃ c, sevenCharCode = some c ∧ c.length ≠ 7)
      ∨ (∃ c, sevenCharCode = some c ∧ findSessionByBaseCode st.sessions (c.take 6) = none)
      ∨ (∃ c hs s, sevenCharCode = some c
          ∧ findSessionByBaseCode st.sessions (c.take 6) = some (hs, s)
          ∧ mapHas s.userCodeMap c = false)) :
    (∃ m, handleWebAppConnection st w sevenCharCode = closeAfterError st w m)
    ∧ (handleWebAppConnection st w sevenCharCode).sessions = st.sessions
    ∧ (handleWebAppConnection st w sevenCharCode).webClients = st.webClients
    ∧ (handleWebAppConnection st w sevenCharCode).activeBaseCodes = st.activeBaseCodes := by
  have hmain : ∃ m, handleWebAppConnection st w sevenCharCode = closeAfterError st w m := by
    rcases h with rfl | ⟨c, rfl, hlen⟩ | ⟨c, rfl, hfind⟩ | ⟨c, hs, s, rfl, hfind, hreg⟩
    · exact ⟨"Invalid code format.", rfl⟩
    · exact ⟨"Invalid code format.", by simp [handleWebAppConnection, hlen]⟩
    · by_cases hlen : c.length = 7
      · exact ⟨"Invalid or inactive session code.", by simp [handleWebAppConnection, hlen, hfind]⟩
      · exact ⟨"Invalid code format.", by simp [handleWebAppConnection, hlen]⟩
    · by_cases hlen : c.length = 7
      · exact ⟨"Invalid or inactive session code.",
          by simp [handleWebAppConnection, hlen, hfind, hreg]⟩
      · exact ⟨"Invalid code format.", by simp [handleWebAppConnection, hlen]⟩
  obtain ⟨m, hm⟩ := hmain
  refine ⟨⟨m, hm⟩, ?_, ?_, ?_⟩ <;> rw [hm] <;> rfl

/-- C7 (counterexample, `src/server/server.js` part): the Socket.IO
`web_app_join_session` handler answers an invalid code with an error result
through the callback and leaves the state unchanged, but it never disconnects
the socket — the connection is not closed. -/
theorem claim7_counterexample :
    onWebAppJoinSession muStEx (some (JsVal.str "zzzzzzz")) "sockX" 5
        = (muStEx, [MUEffect.callbackEv (MUJoinResult.err "Session not found")])
    ∧ MUEffect.disconnectEv "sockX" ∉
        (onWebAppJoinSession muStEx (some (JsVal.str "zzzzzzz")) "sockX" 5).2 := by decide

/-- C7 (witness): a code whose prefix matches no live session is rejected with
an error message and the connection closed, registry untouched. -/
theorem claim7_witness :
    (∃ m, handleWebAppConnection stClaimed 2 (some "ZZZZZZZ") = closeAfterError stClaimed 2 m)
    ∧ (handleWebAppConnection stClaimed 2 (some "ZZZZZZZ")).sessions = stClaimed.sessions
    ∧ (handleWebAppConnection stClaimed 2 (some "ZZZZZZZ")).webClients = stClaimed.webClients
    ∧ (handleWebAppConnection stClaimed 2 (some "ZZZZZZZ")).activeBaseCodes
        = stClaimed.activeBaseCodes :=
  claim7_amended stClaimed 2 (some "ZZZZZZZ")
    (Or.inr (Or.inr (Or.inl ⟨"ZZZZZZZ", rfl, by decide⟩)))

/-- C8 (confirmed, `src/server.js`): a valid telemetry message is forwarded
exactly to the lens (host-side) connections of the sender's session other than
the one owning the sender's full code, skipping every connection that is not
in the `OPEN` state (without error — no send is even attempted), and nothing
is ever sent to the sender's own connection. -/
theorem claim8_route (st : SState) (code : String) (w : Nat) (wc : Conn)
    (sessionHash : String) (s : Session) (owner : String) (v : JsVal) (now : Nat)
    (h1 : mapGet st.webClients code = some w)
    (h2 : mapGet st.conns w = some wc)
    (h3 : wc.info.sessionHash = some sessionHash)
    (hh : sessionHash ≠ "")
    (h4 : mapGet st.sessions sessionHash = some s)
    (h5 : mapGet s.userCodeMap code = some owner)
    (ho : owner ≠ "")
    (h6 : ∀ p ∈ s.lensClients, p.2 ≠ w) :
    handleMouthData st (some code) v now
        = { st with sent := st.sent ++ mouthBatch st s owner code v now }
    ∧ (∀ t m, (t, m) ∈ mouthBatch st s owner code v now ↔
        (m = OutMsg.mouthData code v now
          ∧ ∃ cid, (cid, t) ∈ s.lensClients ∧ cid ≠ owner ∧ connOpen st t = true))
    ∧ (∀ m, (w, m) ∉ mouthBatch st s owner code v now) := by
  have hmain : handleMouthData st (some code) v now
      = { st with sent := st.sent ++ mouthBatch st s owner code v now } := by
    simp [handleMouthData, h1, h2, h3, h4, h5, hh, ho]
  have hmem : ∀ t m, (t, m) ∈ mouthBatch st s owner code v now ↔
      (m = OutMsg.mouthData code v now
        ∧ ∃ cid, (cid, t) ∈ s.lensClients ∧ cid ≠ owner ∧ connOpen st t = true) := by
    intro t m
    unfold mouthBatch
    rw [List.mem_filterMap]
    constructor
    · rintro ⟨p, hp, hf⟩
      by_cases hps : p.1 = owner
      · simp [hps] at hf
      · by_cases hco : connOpen st p.2 = true
        · rw [if_neg hps, if_pos hco] at hf
          have hpair := Option.some.inj hf
          have ht : p.2 = t := congrArg Prod.fst hpair
          have hm2 : OutMsg.mouthData code v now = m := congrArg Prod.snd hpair
          refine ⟨hm2.symm, p.1, ?_, hps, ht ▸ hco⟩
          rw [← ht]
          simpa using hp
        · simp [hps, hco] at hf
    · rintro ⟨rfl, cid, hmem2, hcid, hco⟩
      exact ⟨(cid, t), hmem2, by simp [hcid, hco]⟩
  refine ⟨hmain, hmem, ?_⟩
  intro m hm
  rcases (hmem w m).1 hm with ⟨_, cid, hmem2, _, _⟩
  exact h6 (cid, w) hmem2 rfl

/-- C8 (witness): in `stTwoLens` the telemetry value `0` from code
`"ABCDEFA"` is routed according to `mouthBatch` — to lens connection `3` and
not to the connection of the owner `"h1"` or to the sender. -/
theorem claim8_witness :
    handleMouthData stTwoLens (some "ABCDEFA") (JsVal.num 0) 9
        = { stTwoLens with
              sent := stTwoLens.sent ++ mouthBatch stTwoLens sessTwoLens "h1" "ABCDEFA"
                        (JsVal.num 0) 9 } :=
  (claim8_route stTwoLens "ABCDEFA" 1 webConnEx "H" sessTwoLens "h1" (JsVal.num 0) 9
    (by decide) (by decide) (by decide) (by decide) (by decide) (by decide) (by decide)
    (by decide)).1

/-- C9 (confirmed, `src/server.js`): when a web connection disconnects, the
handler removes only its `webClients` attachment and notifies every lens
connection of the session with `web_app_disconnected`; the session object —
including `userCodeMap`, so the full code stays registered — the lens-client
map, the display code and the code registry are all unchanged. -/
theorem claim9_webDisconnect (st : SState) (w : Nat) (c : Conn) (k sessionHash : String)
    (s : Session)
    (h1 : mapGet st.conns w = some c)
    (h2 : c.info.ctype = some CType.webApp)
    (h3 : c.info.fullKeycode = some k)
    (h4 : c.info.sessionHash = some sessionHash)
    (h5 : mapGet st.sessions sessionHash = some s) :
    handleDisconnection st w
        = { st with webClients := mapDelete st.webClients k,
                    sent := st.sent ++ s.lensClients.map
                      (fun p => (p.2, OutMsg.webAppDisconnected (some k))) }
    ∧ (handleDisconnection st w).sessions = st.sessions
    ∧ mapGet (handleDisconnection st w).sessions sessionHash = some s := by
  have hmain : handleDisconnection st w
      = { st with webClients := mapDelete st.webClients k,
                  sent := st.sent ++ s.lensClients.map
                    (fun p => (p.2, OutMsg.webAppDisconnected (some k))) } := by
    simp [handleDisconnection, h1, h2, h3, h4, h5]
  exact ⟨hmain, by rw [hmain], by rw [hmain]; exact h5⟩

/-- C9 (witness): disconnecting the web connection `1` of `stClaimed` removes
only its claim and notifies the session's lens connection. -/
theorem claim9_witness :
    handleDisconnection stClaimed 1
        = { stClaimed with webClients := mapDelete stClaimed.webClients "ABCDEFA",
                           sent := stClaimed.sent ++ sessEx.lensClients.map
                             (fun p => (p.2, OutMsg.webAppDisconnected (some "ABCDEFA"))) } :=
  (claim9_webDisconnect stClaimed 1 webConnEx "ABCDEFA" "H" sessEx
    (by decide) rfl rfl rfl (by decide)).1

/-- A brace-free character list has no last-brace index. -/
theorem lastBraceIndex_of_not_mem {l : List Char} (h : braceClose ∉ l) :
    lastBraceIndex l = none := by
  induction l with
  | nil => rfl
  | cons c t ih =>
    simp only [List.mem_cons, not_or] at h
    have hc : ¬ c = braceClose := fun hh => h.1 hh.symm
    simp [lastBraceIndex, ih h.2, hc]

/-- Appending brace-free text does not move the last-brace index. -/
theorem lastBraceIndex_append_of_none {l1 l2 : List Char} (h : lastBraceIndex l2 = none) :
    lastBraceIndex (l1 ++ l2) = lastBraceIndex l1 := by
  induction l1 with
  | nil => simpa using h
  | cons c t ih => simp [lastBraceIndex, ih]

/-- A list ending in a closing brace has its last-brace index at the final
position. -/
theorem lastBraceIndex_getLast (l : List Char) :
    l.getLast? = some braceClose → lastBraceIndex l = some (l.length - 1) := by
  induction l with
  | nil => intro h; simp at h
  | cons c t ih =>
    intro hlast
    cases t with
    | nil =>
      have hc : c = braceClose := by simpa using hlast
      simp [lastBraceIndex, hc]
    | cons d u =>
      have h2 : (d :: u).getLast? = some braceClose := by
        rw [List.getLast?_cons_cons] at hlast
        exact hlast
      have hrec := ih h2
      rw [show lastBraceIndex (c :: d :: u) =
            (match lastBraceIndex (d :: u) with
             | some i => some (i + 1)
             | none => if c = braceClose then some 0 else none) from rfl]
      rw [hrec]
      simp only [List.length_cons, Option.some.injEq]
      omega

/-- C10 (amended): the handler keeps everything up to and including the last
closing brace; hence when the trailing bytes after a JSON object text (ending
in the closing brace) contain no closing brace of their own, the dispatcher
parses the message exactly as if the trailing bytes were absent. -/
theorem claim10_amended (J T : String) (hne : J.toList ≠ [])
    (hlast : J.toList.getLast? = some braceClose) (hT : braceClose ∉ T.toList) :
    stripAfterLastBrace (J ++ T) = J ∧ parseMessage (J ++ T) = parseJson J := by
  have hdata : (J ++ T).toList = J.toList ++ T.toList := String.data_append J T
  have hfull : lastBraceIndex (J ++ T).toList = some (J.toList.length - 1) := by
    rw [hdata, lastBraceIndex_append_of_none (lastBraceIndex_of_not_mem hT),
        lastBraceIndex_getLast J.toList hlast]
  have hJlen : 1 ≤ J.toList.length := by
    cases hl : J.toList with
    | nil => exact absurd hl hne
    | cons a b => simp
  have hstrip : stripAfterLastBrace (J ++ T) = J := by
    by_cases hTnil : T.toList = []
    · have hT0 : T = "" := by
        apply String.ext
        exact hTnil
      subst hT0
      have hcond : ¬ (J.toList.length - 1 + 1 < (J ++ "").toList.length) := by
        rw [hdata, List.length_append]
        have h0 : ("" : String).toList.length = 0 := rfl
        omega
      simp only [stripAfterLastBrace, hfull, if_neg hcond]
      simp
    · have hTpos : 1 ≤ T.toList.length := by
        cases hl : T.toList with
        | nil => exact absurd hl hTnil
        | cons a b => simp
      have hfull2 : lastBraceIndex (J.toList ++ T.toList) = some (J.toList.length - 1) := by
        rw [← hdata]
        exact hfull
      have hcond2 : J.toList.length - 1 + 1 < (J.toList ++ T.toList).length := by
        rw [List.length_append]
        omega
      have hsub : J.toList.length - 1 + 1 = J.toList.length := by omega
      simp only [stripAfterLastBrace, hdata, hfull2, hsub, List.take_left]
      rw [if_pos (show J.toList.length < (J.toList ++ T.toList).length by
        rw [List.length_append]; omega)]
      apply String.ext
      rfl
  exact ⟨hstrip, by unfold parseMessage; rw [hstrip]⟩

/-- C10 (counterexample): the message consisting of the valid JSON object text
followed by one trailing closing-brace byte is not dispatched as if the
trailing byte were absent — the truncation keeps the trailing brace (it is the
last one), `JSON.parse` throws, and the message is dropped. -/
theorem claim10_counterexample :
    parseJson "\x7b\x7d" = some (JVal.jobj [])
    ∧ stripAfterLastBrace ("\x7b\x7d" ++ "\x7d") = "\x7b\x7d\x7d"
    ∧ parseMessage ("\x7b\x7d" ++ "\x7d") = none := ⟨rfl, rfl, rfl⟩

/-- C10 (witness): the empty-object text followed by brace-free trailing bytes
parses exactly as the object alone. -/
theorem claim10_witness :
    stripAfterLastBrace ("\x7b\x7d" ++ "abc") = "\x7b\x7d"
    ∧ parseMessage ("\x7b\x7d" ++ "abc") = parseJson "\x7b\x7d" :=
  claim10_amended "\x7b\x7d" "abc" (by decide) (by decide) (by decide)
